import Mathlib

/-!
Shallow embedding of `nws_exporter` (src/main.go): a poll-publish loop that
fetches a weather observation and mirrors its fields into Prometheus gauges.
Numeric measurements (Go `float64`) are modelled as rationals; timestamps are
rational seconds.
-/

/-- A quantitative value from the NWS API: a wrapper record whose inner
`Value` pointer may be nil (`*float64` in Go). The wrapper itself may also be
nil, which is modelled by `Option QuantValue` at every use site, mirroring the
`field != nil && field.Value != nil` chains in `main.go`. -/
structure QuantValue where
  Value : Option ℚ
deriving DecidableEq

/-- The `Properties` object of an NWS observation response, as accessed by
`main.go`: a timestamp and eight optional measurement fields. -/
structure ObsProperties where
  Timestamp : ℚ
  RelativeHumidity : Option QuantValue
  Temperature : Option QuantValue
  Dewpoint : Option QuantValue
  WindDirection : Option QuantValue
  WindSpeed : Option QuantValue
  BarometricPressure : Option QuantValue
  SeaLevelPressure : Option QuantValue
  Visibility : Option QuantValue
deriving DecidableEq

/-- An observation response, as consumed by `main.go` (`response.Properties`). -/
structure Observation where
  Properties : ObsProperties
deriving DecidableEq

/-- The mutable metric state: one gauge per observation field, the
label-partitioned `wind_direction` gauge family (one value per direction
label), and the `time_since_update` gauge. Matches the package-level gauge
variables of `main.go`. -/
structure MetricSet where
  humidity : ℚ
  temperature : ℚ
  dewpoint : ℚ
  winddirection : String → ℚ
  windspeed : ℚ
  barometricpressure : ℚ
  sealevelpressure : ℚ
  visibility : ℚ
  timeSinceUpdate : ℚ

/-- Modelled from the spec: the cardinal-direction labels for buckets 0..7
(`CardinalDirection` is referenced by `main.go` but its body is not among the
provided sources). Bucket 0 = N, 1 = NE, 2 = E, 3 = SE, 4 = S, 5 = SW,
6 = W, 7 = NW. -/
def cardinalLabels : List String :=
  ["N", "NE", "E", "SE", "S", "SW", "W", "NW"]

/-- Modelled from the spec: the bucket index of a wind-direction degree value,
`round(d / 45) mod 8` (the body of `CardinalDirection` is not among the
provided sources; the formula is the one the spec states). -/
def windBucket (d : ℚ) : ℤ :=
  round (d / 45) % 8

/-- Modelled from the spec: the 8-point cardinal label of a degree value, used
by `main.go` as the label value of the `wind_direction` gauge family. -/
def CardinalDirection (d : ℚ) : String :=
  cardinalLabels.getD (windBucket d).toNat "N"

/-- The eight observation fields, in the order `main.go` examines them. -/
inductive ObsField where
  | relativeHumidity
  | temperature
  | dewpoint
  | windDirection
  | windSpeed
  | barometricPressure
  | seaLevelPressure
  | visibility
deriving DecidableEq, Fintype

/-- The accessor `response.Properties.<F>` for each field. -/
def ObsField.get : ObsField → ObsProperties → Option QuantValue
  | .relativeHumidity, p => p.RelativeHumidity
  | .temperature, p => p.Temperature
  | .dewpoint, p => p.Dewpoint
  | .windDirection, p => p.WindDirection
  | .windSpeed, p => p.WindSpeed
  | .barometricPressure, p => p.BarometricPressure
  | .seaLevelPressure, p => p.SeaLevelPressure
  | .visibility, p => p.Visibility

/-- The name appended to `missingProperties` for each field in `main.go`. -/
def ObsField.name : ObsField → String
  | .relativeHumidity => "RelativeHumidity"
  | .temperature => "Temperature"
  | .dewpoint => "Dewpoint"
  | .windDirection => "WindDirection"
  | .windSpeed => "WindSpeed"
  | .barometricPressure => "BarometricPressure"
  | .seaLevelPressure => "SeaLevelPressure"
  | .visibility => "Visibility"

/-- The gauge update `main.go` performs for each present field. Wind direction
uses `winddirection.WithLabelValues(CardinalDirection(v)).Set(v)`: only the
variant for the computed label is written. -/
def ObsField.set : ObsField → MetricSet → ℚ → MetricSet
  | .relativeHumidity, m, v => { m with humidity := v }
  | .temperature, m, v => { m with temperature := v }
  | .dewpoint, m, v => { m with dewpoint := v }
  | .windDirection, m, v =>
      { m with winddirection :=
          fun l => if l = CardinalDirection v then v else m.winddirection l }
  | .windSpeed, m, v => { m with windspeed := v }
  | .barometricPressure, m, v => { m with barometricpressure := v }
  | .seaLevelPressure, m, v => { m with sealevelpressure := v }
  | .visibility, m, v => { m with visibility := v }

/-- The fixed order in which `main.go` processes the eight fields. -/
def ObsField.all : List ObsField :=
  [.relativeHumidity, .temperature, .dewpoint, .windDirection,
   .windSpeed, .barometricPressure, .seaLevelPressure, .visibility]

/-- `field != nil && field.Value != nil` from `main.go`. -/
def isPresent : Option QuantValue → Bool
  | none => false
  | some w => w.Value.isSome

/-- One `if present { set gauge } else { append missing }` block of `main.go`,
threading the metric state and the `missingProperties` accumulator. -/
def fieldStep (f : Option QuantValue) (name : String)
    (set : MetricSet → ℚ → MetricSet) (st : MetricSet × List String) :
    MetricSet × List String :=
  match f with
  | some w =>
    match w.Value with
    | some v => (set st.1 v, st.2)
    | none => (st.1, st.2 ++ [name])
  | none => (st.1, st.2 ++ [name])

/-- The sequence of eight field blocks of `main.go`, in source order. -/
def runFields (p : ObsProperties) (fs : List ObsField)
    (st : MetricSet × List String) : MetricSet × List String :=
  match fs with
  | [] => st
  | F :: rest => runFields p rest (fieldStep (F.get p) F.name F.set st)

/-- The Publishing phase of one loop iteration of `main.go`: first
`timeSinceUpdate.Set(time.Since(response.Properties.Timestamp).Seconds())`
(modelled as `now - Timestamp`), then the eight field blocks. Returns the
updated metric state and the `missingProperties` list of the cycle. -/
def publish (now : ℚ) (response : Observation) (m : MetricSet) :
    MetricSet × List String :=
  runFields response.Properties ObsField.all
    ({ m with timeSinceUpdate := now - response.Properties.Timestamp }, [])

/-- Loop configuration fixed at startup (the flags `main.go` reads inside the
loop). `backofftime` is the inter-poll sleep interval in seconds. -/
structure Config where
  failfast : Bool
  verbose : Bool
  backofftime : ℕ

/-- Outcome of `RetrieveCurrentObservation` (external collaborator): either a
parsed observation with the raw JSON bytes, or an error message. -/
inductive FetchResult where
  | ok (response : Observation) (rawJSON : String)
  | err (msg : String)

/-- The log lines the loop body of `main.go` can emit, by call site. -/
inductive LogLine where
  | fatalError (msg : String)
  | problemRetrieving (msg : String)
  | waitingNextScrape
  | rawJSON (raw : String)
  | missingProps (names : List String)
deriving DecidableEq

/-- Result of one iteration of the scrape loop: either the process terminates
(`log.Fatalf` under fail-fast) or the loop sleeps `sleepSeconds` and returns
to polling, with the metric state, the emitted log lines, and the cycle's
`missingProperties` list. -/
inductive StepOutcome where
  | halted (msg : String) (m : MetricSet) (logs : List LogLine)
  | continued (m : MetricSet) (sleepSeconds : ℕ) (logs : List LogLine)
      (missing : List String)

/-- One iteration of the scrape loop of `main.go`, given the fetch outcome and
the wall-clock time `now` at which the iteration evaluates. On error: fatal if
`failfast`, else log the problem and the wait notice, sleep `backofftime`,
continue. On success: optional verbose raw-JSON log, publish, log the
missing-properties line when the list is non-empty, optional verbose wait
notice, sleep `backofftime`, continue. -/
def loopStep (cfg : Config) (fetch : FetchResult) (now : ℚ) (m : MetricSet) :
    StepOutcome :=
  match fetch with
  | .err e =>
    if cfg.failfast then
      .halted e m [.fatalError e]
    else
      .continued m cfg.backofftime [.problemRetrieving e, .waitingNextScrape] []
  | .ok response raw =>
    let preLogs : List LogLine := if cfg.verbose then [.rawJSON raw] else []
    let res := publish now response m
    let missLogs : List LogLine :=
      if res.2 = [] then [] else [.missingProps res.2]
    let postLogs : List LogLine := if cfg.verbose then [.waitingNextScrape] else []
    .continued res.1 cfg.backofftime (preLogs ++ missLogs ++ postLogs) res.2

/-- The metric state after a step (unchanged when the step halted). -/
def StepOutcome.metrics : StepOutcome → MetricSet
  | .halted _ m _ => m
  | .continued m _ _ _ => m

/-- The missing-properties list of a step (empty when the step halted). -/
def StepOutcome.missing : StepOutcome → List String
  | .halted _ _ _ => []
  | .continued _ _ _ missing => missing

/-- Whether the step returned to polling rather than terminating. -/
def StepOutcome.isContinued : StepOutcome → Bool
  | .halted _ _ _ => false
  | .continued _ _ _ _ => true

/-- Runs the loop over a list of (fetch outcome, evaluation time) pairs,
stopping if an iteration halts; returns the final metric state. -/
def runCycles (cfg : Config) (inputs : List (FetchResult × ℚ))
    (m : MetricSet) : MetricSet :=
  match inputs with
  | [] => m
  | (f, now) :: rest =>
    match loopStep cfg f now m with
    | .halted _ m' _ => m'
    | .continued m' _ _ _ => runCycles cfg rest m'

/-- The sleep durations of a run, one per completed (non-halting) iteration. -/
def runSleeps (cfg : Config) (inputs : List (FetchResult × ℚ))
    (m : MetricSet) : List ℕ :=
  match inputs with
  | [] => []
  | (f, now) :: rest =>
    match loopStep cfg f now m with
    | .halted _ _ _ => []
    | .continued m' s _ _ => s :: runSleeps cfg rest m'

/-- The property "the gauge belonging to field `F` has the same value in `m'`
as in `m`" (for wind direction: every label's variant is unchanged). -/
def ObsField.unchanged : ObsField → MetricSet → MetricSet → Prop
  | .relativeHumidity, m, m' => m'.humidity = m.humidity
  | .temperature, m, m' => m'.temperature = m.temperature
  | .dewpoint, m, m' => m'.dewpoint = m.dewpoint
  | .windDirection, m, m' => ∀ l, m'.winddirection l = m.winddirection l
  | .windSpeed, m, m' => m'.windspeed = m.windspeed
  | .barometricPressure, m, m' => m'.barometricpressure = m.barometricpressure
  | .seaLevelPressure, m, m' => m'.sealevelpressure = m.sealevelpressure
  | .visibility, m, m' => m'.visibility = m.visibility

/-- The property "the gauge belonging to field `F` holds value `v` in `m'`"
(for wind direction: the variant labeled with the cardinal label computed
from `v` holds `v`). -/
def ObsField.updated : ObsField → MetricSet → ℚ → Prop
  | .relativeHumidity, m', v => m'.humidity = v
  | .temperature, m', v => m'.temperature = v
  | .dewpoint, m', v => m'.dewpoint = v
  | .windDirection, m', v => m'.winddirection (CardinalDirection v) = v
  | .windSpeed, m', v => m'.windspeed = v
  | .barometricPressure, m', v => m'.barometricpressure = v
  | .seaLevelPressure, m', v => m'.sealevelpressure = v
  | .visibility, m', v => m'.visibility = v

lemma unchanged_refl (F : ObsField) (m : MetricSet) : F.unchanged m m := by
  cases F <;> simp [ObsField.unchanged]

lemma unchanged_trans {F : ObsField} {m1 m2 m3 : MetricSet}
    (h1 : F.unchanged m1 m2) (h2 : F.unchanged m2 m3) : F.unchanged m1 m3 := by
  cases F
  case windDirection => exact fun l => (h2 l).trans (h1 l)
  all_goals exact h2.trans h1

lemma set_unchanged_of_ne {F G : ObsField} (h : G ≠ F) (m : MetricSet)
    (v : ℚ) : F.unchanged m (G.set m v) := by
  cases F <;> cases G <;> simp_all [ObsField.set, ObsField.unchanged]

lemma updated_set (F : ObsField) (m : MetricSet) (v : ℚ) :
    F.updated (F.set m v) v := by
  cases F <;> simp [ObsField.set, ObsField.updated]

lemma updated_of_unchanged {F : ObsField} {m m' : MetricSet} {v : ℚ}
    (hu : F.updated m v) (h : F.unchanged m m') : F.updated m' v := by
  cases F
  case windDirection => exact (h _).trans hu
  all_goals exact h.trans hu

lemma set_timeSinceUpdate (F : ObsField) (m : MetricSet) (v : ℚ) :
    (F.set m v).timeSinceUpdate = m.timeSinceUpdate := by
  cases F <;> simp [ObsField.set]

lemma runFields_append (p : ObsProperties) (as bs : List ObsField)
    (st : MetricSet × List String) :
    runFields p (as ++ bs) st = runFields p bs (runFields p as st) := by
  induction as generalizing st with
  | nil => rfl
  | cons F rest ih => simp [runFields, ih]

lemma runFields_snd (p : ObsProperties) (fs : List ObsField)
    (st : MetricSet × List String) :
    (runFields p fs st).2 =
      st.2 ++ (fs.filter (fun F => !isPresent (F.get p))).map ObsField.name := by
  induction fs generalizing st with
  | nil => simp [runFields]
  | cons F rest ih =>
    rcases hF : F.get p with _ | w
    · simp [runFields, fieldStep, hF, ih, isPresent]
    · rcases hv : w.Value with _ | v
      · simp [runFields, fieldStep, hF, hv, ih, isPresent]
      · simp [runFields, fieldStep, hF, hv, ih, isPresent]

lemma runFields_timeSinceUpdate (p : ObsProperties) (fs : List ObsField)
    (st : MetricSet × List String) :
    (runFields p fs st).1.timeSinceUpdate = st.1.timeSinceUpdate := by
  induction fs generalizing st with
  | nil => rfl
  | cons F rest ih =>
    rcases hF : F.get p with _ | w
    · simp [runFields, fieldStep, hF, ih]
    · rcases hv : w.Value with _ | v
      · simp [runFields, fieldStep, hF, hv, ih]
      · simp [runFields, fieldStep, hF, hv, ih, set_timeSinceUpdate]

lemma runFields_unchanged {F : ObsField} {p : ObsProperties}
    {fs : List ObsField} (h : F ∉ fs) (st : MetricSet × List String) :
    F.unchanged st.1 (runFields p fs st).1 := by
  induction fs generalizing st with
  | nil => exact unchanged_refl F st.1
  | cons G rest ih =>
    have hGF : G ≠ F := by rintro rfl; exact h (List.mem_cons_self _ _)
    have h2 : F ∉ rest := fun hm => h (List.mem_cons_of_mem _ hm)
    have step : F.unchanged st.1 (fieldStep (G.get p) G.name G.set st).1 := by
      rcases hG : G.get p with _ | w
      · exact unchanged_refl F st.1
      · rcases hv : w.Value with _ | v
        · simp only [fieldStep, hv]; exact unchanged_refl F st.1
        · simp only [fieldStep, hv]; exact set_unchanged_of_ne hGF st.1 v
    exact unchanged_trans step (ih h2 _)

lemma runFields_unchanged_absent {F : ObsField} {p : ObsProperties}
    (habs : isPresent (F.get p) = false) (fs : List ObsField)
    (st : MetricSet × List String) :
    F.unchanged st.1 (runFields p fs st).1 := by
  induction fs generalizing st with
  | nil => exact unchanged_refl F st.1
  | cons G rest ih =>
    have step : F.unchanged st.1 (fieldStep (G.get p) G.name G.set st).1 := by
      rcases hG : G.get p with _ | w
      · exact unchanged_refl F st.1
      · rcases hv : w.Value with _ | v
        · simp only [fieldStep, hv]; exact unchanged_refl F st.1
        · simp only [fieldStep, hv]
          by_cases hGF : G = F
          · subst hGF; rw [hG] at habs; simp [isPresent, hv] at habs
          · exact set_unchanged_of_ne hGF st.1 v
    exact unchanged_trans step (ih _)

lemma runFields_updated {p : ObsProperties} {F : ObsField} {w : QuantValue}
    {v : ℚ} (hw : F.get p = some w) (hv : w.Value = some v)
    {fs : List ObsField} (hmem : F ∈ fs) (hnd : fs.Nodup)
    (st : MetricSet × List String) : F.updated (runFields p fs st).1 v := by
  obtain ⟨l1, l2, rfl⟩ := List.append_of_mem hmem
  have hF2 : F ∉ l2 := by
    have hsub : (F :: l2).Nodup :=
      (List.sublist_append_right l1 (F :: l2)).nodup hnd
    exact (List.nodup_cons.mp hsub).1
  rw [runFields_append]
  have hstep : fieldStep (F.get p) F.name F.set (runFields p l1 st) =
      (F.set (runFields p l1 st).1 v, (runFields p l1 st).2) := by
    rw [hw]; simp [fieldStep, hv]
  rw [show runFields p (F :: l2) (runFields p l1 st) =
      runFields p l2 (fieldStep (F.get p) F.name F.set (runFields p l1 st))
    from rfl, hstep]
  exact updated_of_unchanged (updated_set F (runFields p l1 st).1 v)
    (runFields_unchanged hF2
      (F.set (runFields p l1 st).1 v, (runFields p l1 st).2))

lemma mem_all (F : ObsField) : F ∈ ObsField.all := by
  cases F <;> simp [ObsField.all]

lemma all_nodup : ObsField.all.Nodup := by decide

lemma name_inj : ∀ F G : ObsField, F.name = G.name → F = G := by decide

lemma publish_updated {now : ℚ} {o : Observation} {m : MetricSet}
    {F : ObsField} {w : QuantValue} {v : ℚ} (hw : F.get o.Properties = some w)
    (hv : w.Value = some v) : F.updated (publish now o m).1 v :=
  runFields_updated hw hv (mem_all F) all_nodup _

lemma publish_snd (now : ℚ) (o : Observation) (m : MetricSet) :
    (publish now o m).2 =
      (ObsField.all.filter
        (fun F => !isPresent (F.get o.Properties))).map ObsField.name := by
  rw [publish, runFields_snd]; rfl

/-- Membership of `k ≤ ⌊x + 1/2⌋`-style rounding in an explicit half-open
interval: `round (d / 45) = j` exactly when `d` lies in the 45-degree-wide
window centered at `45 * j`. -/
lemma round_div45_eq (d : ℚ) (j : ℤ) :
    round (d / 45) = j ↔ 45 * j - 45 / 2 ≤ d ∧ d < 45 * j + 45 / 2 := by
  rw [round_eq, Int.floor_eq_iff]
  constructor
  · rintro ⟨h1, h2⟩
    constructor <;> linarith
  · rintro ⟨h1, h2⟩
    constructor <;> linarith

/-- The 45-degree-wide half-open arc centered at compass point `45 * k`. -/
def inArc (k : ℕ) (x : ℚ) : Prop :=
  45 * k - 45 / 2 ≤ x ∧ x < 45 * k + 45 / 2

lemma windBucket_nonneg (d : ℚ) : 0 ≤ windBucket d :=
  Int.emod_nonneg _ (by norm_num)

lemma windBucket_lt (d : ℚ) : windBucket d < 8 :=
  Int.emod_lt_of_pos _ (by norm_num)

lemma windBucket_add_360 (d : ℚ) : windBucket (d + 360) = windBucket d := by
  unfold windBucket
  have h : (d + 360) / 45 = d / 45 + (8 : ℤ) := by push_cast; ring
  rw [h, round_add_int]
  omega

lemma windBucket_partition (d : ℚ) (h0 : 0 ≤ d) (h1 : d < 360) (k : ℕ)
    (hk : k < 8) : windBucket d = k ↔ inArc k d ∨ inArc k (d - 360) := by
  have hb0 : (0 : ℤ) ≤ round (d / 45) := by
    rw [round_eq]
    exact Int.le_floor.mpr (by push_cast; linarith)
  have hb8 : round (d / 45) ≤ 8 := by
    rw [round_eq]
    have h9 : (⌊d / 45 + 1 / 2⌋ : ℤ) < 9 :=
      Int.floor_lt.mpr (by push_cast; linarith)
    omega
  have hsplit : windBucket d = k ↔
      round (d / 45) = (k : ℤ) ∨ round (d / 45) = (k : ℤ) + 8 := by
    unfold windBucket; omega
  rw [hsplit, round_div45_eq, round_div45_eq]
  unfold inArc
  constructor
  · rintro (⟨a, b⟩ | ⟨a, b⟩)
    · left; constructor <;> push_cast at * <;> linarith
    · right; constructor <;> push_cast at * <;> linarith
  · rintro (⟨a, b⟩ | ⟨a, b⟩)
    · left; constructor <;> push_cast at * <;> linarith
    · right; constructor <;> push_cast at * <;> linarith

lemma CardinalDirection_mem (d : ℚ) : CardinalDirection d ∈ cardinalLabels := by
  unfold CardinalDirection
  have h3 : (windBucket d).toNat < cardinalLabels.length := by
    have h1 := windBucket_nonneg d
    have h2 := windBucket_lt d
    simp [cardinalLabels]; omega
  rw [List.getD_eq_getElem cardinalLabels "N" h3]
  exact List.getElem_mem h3

lemma CardinalDirection_add_360 (d : ℚ) :
    CardinalDirection (d + 360) = CardinalDirection d := by
  unfold CardinalDirection
  rw [windBucket_add_360]

/-- The gauge state at process start: every gauge (and every label variant of
the wind-direction family) reads 0, the Prometheus default. -/
def initialMetrics : MetricSet :=
  { humidity := 0, temperature := 0, dewpoint := 0,
    winddirection := fun _ => 0, windspeed := 0, barometricpressure := 0,
    sealevelpressure := 0, visibility := 0, timeSinceUpdate := 0 }

/-- The log lines emitted by a step. -/
def StepOutcome.logs : StepOutcome → List LogLine
  | .halted _ _ logs => logs
  | .continued _ _ logs _ => logs

lemma loopStep_sleep {cfg : Config} {fetch : FetchResult} {now : ℚ}
    {m m' : MetricSet} {s : ℕ} {logs : List LogLine} {missing : List String}
    (h : loopStep cfg fetch now m = .continued m' s logs missing) :
    s = cfg.backofftime := by
  rcases fetch with ⟨o, raw⟩ | e
  · simp only [loopStep] at h
    injection h with h1 h2 h3 h4
    exact h2.symm
  · by_cases hf : cfg.failfast <;> simp [loopStep, hf] at h
    exact h.2.1.symm

lemma runFields_wd_frame (p : ObsProperties) (fs : List ObsField)
    (st : MetricSet × List String) (l : String)
    (hl : ∀ (w : QuantValue) (d : ℚ), p.WindDirection = some w →
      w.Value = some d → l ≠ CardinalDirection d) :
    (runFields p fs st).1.winddirection l = st.1.winddirection l := by
  induction fs generalizing st with
  | nil => rfl
  | cons G rest ih =>
    rw [runFields, ih]
    rcases hG : G.get p with _ | w
    · simp [fieldStep]
    · rcases hv : w.Value with _ | v
      · simp [fieldStep, hv]
      · simp only [fieldStep, hv]
        cases G
        case windDirection =>
          simp only [ObsField.set]
          exact if_neg (hl w v hG hv)
        all_goals simp [ObsField.set]

/-- A sample observation with all eight fields present. -/
def sampleFull : Observation :=
  ⟨{ Timestamp := 100, RelativeHumidity := some ⟨some 50⟩,
     Temperature := some ⟨some 21⟩, Dewpoint := some ⟨some 10⟩,
     WindDirection := some ⟨some 90⟩, WindSpeed := some ⟨some 15⟩,
     BarometricPressure := some ⟨some 101325⟩,
     SeaLevelPressure := some ⟨some 101300⟩,
     Visibility := some ⟨some 16000⟩ }⟩

/-- A sample observation whose humidity field is absent (nil wrapper). -/
def sampleMissing : Observation :=
  ⟨{ Timestamp := 100, RelativeHumidity := none,
     Temperature := some ⟨some 21⟩, Dewpoint := some ⟨some 10⟩,
     WindDirection := some ⟨some 90⟩, WindSpeed := some ⟨some 15⟩,
     BarometricPressure := some ⟨some 101325⟩,
     SeaLevelPressure := some ⟨some 101300⟩,
     Visibility := some ⟨some 16000⟩ }⟩

/-- A sample configuration with fail-fast off. -/
def sampleCfg : Config := { failfast := false, verbose := false, backofftime := 100 }

/-- A sample configuration with fail-fast on. -/
def sampleCfgFF : Config := { failfast := true, verbose := false, backofftime := 100 }

/-- C1: for every Observation in which all eight fields (humidity,
temperature, dewpoint, wind direction, wind speed, barometric pressure,
sea-level pressure, visibility) are present (wrapper and inner value both
non-absent), after one Publishing cycle each corresponding gauge equals that
field's value. -/
theorem c1_all_present_gauges_match (now : ℚ) (o : Observation) (m : MetricSet)
    (_hall : ∀ F : ObsField, isPresent (F.get o.Properties) = true) :
    ∀ (F : ObsField) (w : QuantValue) (v : ℚ),
      F.get o.Properties = some w → w.Value = some v →
      F.updated (publish now o m).1 v :=
  fun _ _ _ hw hv => publish_updated hw hv

theorem c1_witness :
    (∀ F : ObsField, isPresent (F.get sampleFull.Properties) = true) ∧
    ObsField.updated .temperature (publish 105 sampleFull initialMetrics).1 21 :=
  ⟨by decide,
   c1_all_present_gauges_match 105 sampleFull initialMetrics (by decide)
     .temperature ⟨some 21⟩ 21 rfl rfl⟩

/-- C2: for every Observation missing some field F (wrapper nil or inner
value nil), after one Publishing cycle the gauge for F still holds its
pre-cycle value, F's name appears in that cycle's missing-properties list,
and every other present field's gauge is updated to its value. -/
theorem c2_missing_field_frame (now : ℚ) (o : Observation) (m : MetricSet)
    (F : ObsField) (habs : isPresent (F.get o.Properties) = false) :
    F.unchanged m (publish now o m).1 ∧
    F.name ∈ (publish now o m).2 ∧
    ∀ (G : ObsField) (w : QuantValue) (v : ℚ), G ≠ F →
      G.get o.Properties = some w → w.Value = some v →
      G.updated (publish now o m).1 v := by
  refine ⟨?_, ?_, fun G w v _ hw hv => publish_updated hw hv⟩
  · have h1 : F.unchanged m
        { m with timeSinceUpdate := now - o.Properties.Timestamp } := by
      cases F <;> simp [ObsField.unchanged]
    exact unchanged_trans h1 (runFields_unchanged_absent habs ObsField.all
      ({ m with timeSinceUpdate := now - o.Properties.Timestamp }, []))
  · rw [publish_snd]
    exact List.mem_map_of_mem _ (List.mem_filter.mpr ⟨mem_all F, by simp [habs]⟩)

theorem c2_witness :
    isPresent (ObsField.get .relativeHumidity sampleMissing.Properties) = false ∧
    (ObsField.unchanged .relativeHumidity initialMetrics
        (publish 105 sampleMissing initialMetrics).1 ∧
      ObsField.name .relativeHumidity ∈
        (publish 105 sampleMissing initialMetrics).2 ∧
      ∀ (G : ObsField) (w : QuantValue) (v : ℚ), G ≠ .relativeHumidity →
        G.get sampleMissing.Properties = some w → w.Value = some v →
        G.updated (publish 105 sampleMissing initialMetrics).1 v) :=
  ⟨rfl, c2_missing_field_frame 105 sampleMissing initialMetrics
    .relativeHumidity rfl⟩

/-- C5: for every successful fetch, the time_since_update gauge is set in
that cycle to (evaluation wall-clock time minus Observation.timestamp) in
seconds, regardless of which of the eight fields are present, and it is set
even when every field is absent. -/
theorem c5_time_since_update_always_set (now : ℚ) (o : Observation)
    (m : MetricSet) :
    (publish now o m).1.timeSinceUpdate = now - o.Properties.Timestamp := by
  simp only [publish]
  rw [runFields_timeSinceUpdate]

/-- C7: for every Observation with wind direction present at degree value d,
the Publishing cycle sets the wind_direction gauge variant labeled with the
cardinal label computed from d to the value d itself, and gauge variants for
every other compass label keep whatever value they had from prior cycles
(they are not cleared or zeroed). -/
theorem c7_wind_direction_label_variant (now : ℚ) (o : Observation)
    (m : MetricSet) (w : QuantValue) (d : ℚ)
    (hw : o.Properties.WindDirection = some w) (hv : w.Value = some d) :
    (publish now o m).1.winddirection (CardinalDirection d) = d ∧
    ∀ l, l ≠ CardinalDirection d →
      (publish now o m).1.winddirection l = m.winddirection l := by
  constructor
  · exact publish_updated (F := .windDirection) hw hv
  · intro l hl
    simp only [publish]
    rw [runFields_wd_frame]
    intro w' d' hw' hv'
    rw [hw] at hw'
    cases hw'
    rw [hv] at hv'
    cases hv'
    exact hl

theorem c7_witness :
    sampleFull.Properties.WindDirection = some ⟨some 90⟩ ∧
    (⟨some 90⟩ : QuantValue).Value = some 90 ∧
    ((publish 105 sampleFull initialMetrics).1.winddirection
        (CardinalDirection 90) = 90 ∧
      ∀ l, l ≠ CardinalDirection 90 →
        (publish 105 sampleFull initialMetrics).1.winddirection l =
          initialMetrics.winddirection l) :=
  ⟨rfl, rfl,
   c7_wind_direction_label_variant 105 sampleFull initialMetrics
     ⟨some 90⟩ 90 rfl rfl⟩

/-- C10: for every Observation, the missing-properties list built in a
Publishing cycle is a subsequence of the fixed order RelativeHumidity,
Temperature, Dewpoint, WindDirection, WindSpeed, BarometricPressure,
SeaLevelPressure, Visibility; it contains exactly the absent fields (wrapper
nil or inner value nil), each at most once, so its length is at most 8. -/
theorem c10_missing_list_shape (now : ℚ) (o : Observation) (m : MetricSet) :
    (publish now o m).2 =
      (ObsField.all.filter
        (fun F => !isPresent (F.get o.Properties))).map ObsField.name ∧
    (publish now o m).2.Sublist
      ["RelativeHumidity", "Temperature", "Dewpoint", "WindDirection",
       "WindSpeed", "BarometricPressure", "SeaLevelPressure", "Visibility"] ∧
    (publish now o m).2.Nodup ∧
    (publish now o m).2.length ≤ 8 ∧
    ∀ F : ObsField,
      (F.name ∈ (publish now o m).2 ↔ isPresent (F.get o.Properties) = false) := by
  have hmain := publish_snd now o m
  have hnames : (["RelativeHumidity", "Temperature", "Dewpoint",
      "WindDirection", "WindSpeed", "BarometricPressure", "SeaLevelPressure",
      "Visibility"] : List String) = ObsField.all.map ObsField.name := rfl
  refine ⟨hmain, ?_, ?_, ?_, ?_⟩
  · rw [hmain, hnames]
    exact (List.filter_sublist _).map _
  · rw [hmain]
    exact (all_nodup.filter _).map (fun a b h => name_inj a b h)
  · rw [hmain]
    calc ((ObsField.all.filter
          (fun F => !isPresent (F.get o.Properties))).map ObsField.name).length
        = (ObsField.all.filter
            (fun F => !isPresent (F.get o.Properties))).length := by
          rw [List.length_map]
      _ ≤ ObsField.all.length := List.length_filter_le _ _
      _ = 8 := rfl
  · intro F
    rw [hmain]
    constructor
    · intro hmem
      obtain ⟨G, hGf, hGn⟩ := List.mem_map.mp hmem
      obtain rfl := name_inj G F hGn
      have hfil := (List.mem_filter.mp hGf).2
      simpa using hfil
    · intro habs
      exact List.mem_map_of_mem _ (List.mem_filter.mpr ⟨mem_all F, by simp [habs]⟩)

/-- C3: for every fetch that returns an error, when fail-fast is false: no
gauge (including time_since_update) changes in that cycle, exactly one error
log line is emitted, the loop sleeps the configured interval and returns to
Polling, and a subsequent successful fetch updates gauges exactly as it would
after any success (no error state latches). -/
theorem c3_error_no_failfast (cfg : Config) (e : String) (now : ℚ)
    (m : MetricSet) (hff : cfg.failfast = false) :
    loopStep cfg (.err e) now m =
      .continued m cfg.backofftime
        [.problemRetrieving e, .waitingNextScrape] [] ∧
    (loopStep cfg (.err e) now m).logs.count (.problemRetrieving e) = 1 ∧
    ∀ (inputs : List (FetchResult × ℚ)) (m0 : MetricSet),
      runCycles cfg ((FetchResult.err e, now) :: inputs) m0 =
        runCycles cfg inputs m0 := by
  have hstep : ∀ m0 : MetricSet, loopStep cfg (.err e) now m0 =
      .continued m0 cfg.backofftime
        [.problemRetrieving e, .waitingNextScrape] [] := by
    intro m0; simp [loopStep, hff]
  refine ⟨hstep m, ?_, ?_⟩
  · rw [hstep m]
    simp [StepOutcome.logs]
  · intro inputs m0
    rw [runCycles, hstep m0]

theorem c3_witness :
    sampleCfg.failfast = false ∧
    (loopStep sampleCfg (.err "boom") 0 initialMetrics =
       .continued initialMetrics sampleCfg.backofftime
         [.problemRetrieving "boom", .waitingNextScrape] [] ∧
     (loopStep sampleCfg (.err "boom") 0 initialMetrics).logs.count
         (.problemRetrieving "boom") = 1 ∧
     ∀ (inputs : List (FetchResult × ℚ)) (m0 : MetricSet),
       runCycles sampleCfg ((FetchResult.err "boom", 0) :: inputs) m0 =
         runCycles sampleCfg inputs m0) :=
  ⟨rfl, c3_error_no_failfast sampleCfg "boom" 0 initialMetrics rfl⟩

/-- C4: for every fetch that returns an error, when fail-fast is true: the
process terminates (the loop halts) reporting the error, and no part of the
Publishing phase runs for that cycle (no gauge is set: the metric state in
the halted outcome is the pre-cycle state). -/
theorem c4_error_failfast (cfg : Config) (e : String) (now : ℚ)
    (m : MetricSet) (hff : cfg.failfast = true) :
    loopStep cfg (.err e) now m = .halted e m [.fatalError e] ∧
    ∀ (inputs : List (FetchResult × ℚ)) (m0 : MetricSet),
      runCycles cfg ((FetchResult.err e, now) :: inputs) m0 = m0 := by
  constructor
  · simp [loopStep, hff]
  · intro inputs m0
    rw [runCycles]
    simp [loopStep, hff]

theorem c4_witness :
    sampleCfgFF.failfast = true ∧
    (loopStep sampleCfgFF (.err "boom") 0 initialMetrics =
       .halted "boom" initialMetrics [.fatalError "boom"] ∧
     ∀ (inputs : List (FetchResult × ℚ)) (m0 : MetricSet),
       runCycles sampleCfgFF ((FetchResult.err "boom", 0) :: inputs) m0 = m0) :=
  ⟨rfl, c4_error_failfast sampleCfgFF "boom" 0 initialMetrics rfl⟩

/-- C8: in every iteration of the loop, whether the fetch succeeded or
failed, the sleep before the next Polling attempt is the same configured
constant interval; the interval never changes with the count of consecutive
failures (every sleep in every run equals the configured constant). -/
theorem c8_constant_sleep_interval :
    (∀ (cfg : Config) (fetch : FetchResult) (now : ℚ) (m m' : MetricSet)
       (s : ℕ) (logs : List LogLine) (missing : List String),
       loopStep cfg fetch now m = .continued m' s logs missing →
       s = cfg.backofftime) ∧
    ∀ (cfg : Config) (inputs : List (FetchResult × ℚ)) (m0 : MetricSet)
      (s : ℕ), s ∈ runSleeps cfg inputs m0 → s = cfg.backofftime := by
  refine ⟨fun cfg fetch now m m' s logs missing h => loopStep_sleep h, ?_⟩
  intro cfg inputs
  induction inputs with
  | nil => intro m0 s h; simp [runSleeps] at h
  | cons fp rest ih =>
    intro m0 s h
    obtain ⟨f, now⟩ := fp
    rcases hstep : loopStep cfg f now m0 with ⟨msg, m1, logs⟩ |
      ⟨m1, s1, logs, missing⟩
    · simp [runSleeps, hstep] at h
    · simp only [runSleeps, hstep, List.mem_cons] at h
      rcases h with rfl | h
      · exact loopStep_sleep hstep
      · exact ih m1 s h

theorem c8_witness :
    (loopStep sampleCfg (.err "x") 0 initialMetrics =
       .continued initialMetrics 100
         [.problemRetrieving "x", .waitingNextScrape] []) ∧
    (100 = sampleCfg.backofftime) ∧
    (100 ∈ runSleeps sampleCfg [(FetchResult.err "x", 0)] initialMetrics) ∧
    100 = sampleCfg.backofftime := by
  have h1 : loopStep sampleCfg (.err "x") 0 initialMetrics =
      .continued initialMetrics 100
        [.problemRetrieving "x", .waitingNextScrape] [] := rfl
  have h2 : 100 ∈ runSleeps sampleCfg [(FetchResult.err "x", 0)]
      initialMetrics := by
    simp [runSleeps, loopStep, sampleCfg]
  exact ⟨h1, c8_constant_sleep_interval.1 sampleCfg _ 0 initialMetrics _ _ _ _ h1,
    h2, c8_constant_sleep_interval.2 sampleCfg _ initialMetrics 100 h2⟩

/-- C9: for every Observation and fixed clock value, two runs of one loop
cycle that differ only in the verbose flag produce identical gauge values,
an identical missing-properties list, and the same continue/halt outcome;
verbose affects only diagnostic log output. -/
theorem c9_verbose_noninterference (cfg : Config) (fetch : FetchResult)
    (now : ℚ) (m : MetricSet) (v1 v2 : Bool) :
    (loopStep { cfg with verbose := v1 } fetch now m).metrics =
      (loopStep { cfg with verbose := v2 } fetch now m).metrics ∧
    (loopStep { cfg with verbose := v1 } fetch now m).missing =
      (loopStep { cfg with verbose := v2 } fetch now m).missing ∧
    (loopStep { cfg with verbose := v1 } fetch now m).isContinued =
      (loopStep { cfg with verbose := v2 } fetch now m).isContinued := by
  rcases fetch with ⟨o, raw⟩ | e
  · simp [loopStep, StepOutcome.metrics, StepOutcome.missing,
      StepOutcome.isContinued]
  · by_cases hf : cfg.failfast <;>
      simp [loopStep, hf, StepOutcome.metrics, StepOutcome.missing,
        StepOutcome.isContinued]

/-- C6: the cardinal-direction mapping d ↦ round(d / 45) mod 8 (bucket
0 = N, 1 = NE, 2 = E, 3 = SE, 4 = S, 5 = SW, 6 = W, 7 = NW) is total and
periodic: mapping(d) = mapping(d + 360) for all d, the eight buckets
partition [0, 360) into equal 45-degree arcs (each bucket k is hit exactly on
the half-open 45-wide arc centered at 45k, wrapping at 360), and
mapping(0) = N, mapping(90) = E, mapping(180) = S, mapping(270) = W. -/
theorem c6_cardinal_mapping :
    (∀ d : ℚ, 0 ≤ windBucket d ∧ windBucket d < 8 ∧
       CardinalDirection d ∈ cardinalLabels) ∧
    (∀ d : ℚ, windBucket (d + 360) = windBucket d ∧
       CardinalDirection (d + 360) = CardinalDirection d) ∧
    (∀ (d : ℚ) (k : ℕ), 0 ≤ d → d < 360 → k < 8 →
       (windBucket d = k ↔ inArc k d ∨ inArc k (d - 360))) ∧
    CardinalDirection 0 = "N" ∧ CardinalDirection 90 = "E" ∧
    CardinalDirection 180 = "S" ∧ CardinalDirection 270 = "W" := by
  refine ⟨fun d => ⟨windBucket_nonneg d, windBucket_lt d,
      CardinalDirection_mem d⟩,
    fun d => ⟨windBucket_add_360 d, CardinalDirection_add_360 d⟩,
    fun d k h0 h1 hk => windBucket_partition d h0 h1 k hk, ?_, ?_, ?_, ?_⟩
  · have h : windBucket 0 = 0 := by norm_num [windBucket, round_eq]
    simp [CardinalDirection, h, cardinalLabels]
  · have h : windBucket 90 = 2 := by norm_num [windBucket, round_eq]
    simp [CardinalDirection, h, cardinalLabels]
  · have h : windBucket 180 = 4 := by norm_num [windBucket, round_eq]
    simp [CardinalDirection, h, cardinalLabels]
  · have h : windBucket 270 = 6 := by norm_num [windBucket, round_eq]
    simp [CardinalDirection, h, cardinalLabels]

theorem c6_witness :
    ((0 : ℚ) ≤ 90) ∧ ((90 : ℚ) < 360) ∧ (2 < 8) ∧
    (windBucket 90 = ((2 : ℕ) : ℤ) ↔ inArc 2 90 ∨ inArc 2 (90 - 360)) :=
  ⟨by norm_num, by norm_num, by norm_num,
   c6_cardinal_mapping.2.2.1 90 2 (by norm_num) (by norm_num) (by norm_num)⟩
